import Mathlib

/-!
Verification development for the jjui event-loop / focus-routing core
(`internal/ui/ui.go`, `internal/ui/operations/details/details.go`,
`internal/config`).  Go structures are embedded shallowly: pointer fields
that act as overlay toggle slots become `Option` values, booleans stay
booleans, `tea.Cmd` values become tags of an explicit command type, and
each Go function is translated into a Lean function over that state.
-/

namespace JJUI

/-- Abstract key press, standing for a bubbletea `tea.KeyMsg`. -/
structure Key where
  code : Nat
deriving DecidableEq, Repr

/-- In Go, `key.Binding` holds a set of key identifiers; `key.Matches`
checks whether the pressed key is one of them.  A chord is that set. -/
abbrev Chord := List Key

/-- Embeds `key.Matches(msg, binding)`. -/
def chordMatches (k : Key) (c : Chord) : Bool := c.contains k

/-- Identity of a mouse-aware view, used by `findViewAt` and drag state. -/
inductive ViewId where
  | diffView
  | oplogView
  | revisionsView
  | previewView
deriving DecidableEq, Repr

/-- Tags for the `tea.Cmd` values produced by the update functions.  Only
the identity of each command matters to the properties proved here. -/
inductive UICmd where
  | selectionChanged
  | quit
  | initOplog
  | editRevset
  | initStacked
  | toggleHelp
  | initLeader
  | fileSearch
  | suspendProc
  | prepareCustom (action : Nat)
  | close
  | refresh
  | runDiffCmd
  | confirmationOpened
  | invokeStartSquash
  | closeAndUpdateRevset
  | delegatedToConfirmation
deriving DecidableEq, Repr

/-- Integer rectangle, embedding `cellbuf.Rectangle` (min inclusive,
max exclusive, as in Go `image.Rectangle`). -/
structure Rect where
  minX : Int
  minY : Int
  maxX : Int
  maxY : Int
deriving DecidableEq, Repr

/-- Embeds `pt.In(rect)` for Go rectangles. -/
def Rect.contains (r : Rect) (x y : Int) : Bool :=
  decide (r.minX ≤ x) && decide (x < r.maxX) && decide (r.minY ≤ y) && decide (y < r.maxY)

/-- A user-configured custom command: its single-key binding, its chord
sequence, the result of `IsApplicableTo(context.SelectedItem)` at the
current selection, and an identifier for the action it prepares. -/
structure CustomCommand where
  binding : Chord
  seq : List Chord
  applicable : Bool
  action : Nat
deriving DecidableEq, Repr

/-- One live candidate of the sequence overlay: the command plus how many
of its chords have been matched so far. -/
structure SeqCandidate where
  cmd : CustomCommand
  progress : Nat
deriving DecidableEq, Repr

/-- Modelled from the spec: the `customcommands.SequenceOverlay` state
(its Go source is not part of this repository snapshot; only its caller in
`ui.go` and the spec section on the Sequence Matcher are).  While
`Collecting` it holds the surviving candidate commands with their match
progress. -/
structure SequenceOverlay where
  candidates : List SeqCandidate
deriving DecidableEq, Repr

/-- Result of `SequenceOverlay.HandleKey`: whether the overlay stays
active and an optional command to run. -/
structure SeqKeyResult where
  active : Bool
  cmd : Option UICmd
deriving DecidableEq, Repr

/-- Modelled from the spec: `customcommands.NewSequenceOverlay` starts
with every custom command that has a non-empty chord sequence and whose
applicability predicate holds for the selected item, none matched yet. -/
def newSequenceOverlay (cmds : List CustomCommand) : SequenceOverlay :=
  ⟨(cmds.filter (fun c => !c.seq.isEmpty && c.applicable)).map (fun c => ⟨c, 0⟩)⟩

/-- Advances one candidate by a key: keeps it only if its next unmatched
chord matches the key. -/
def seqAdvance (k : Key) (c : SeqCandidate) : Option SeqCandidate :=
  match c.cmd.seq.get? c.progress with
  | some chord => if chordMatches k chord then some ⟨c.cmd, c.progress + 1⟩ else none
  | none => none

/-- Modelled from the spec: `SequenceOverlay.HandleKey`.  Filter the
candidates to those whose next unmatched chord equals the key; if the
filtered set is empty, return to idle with no command; if a candidate is
fully consumed, invoke the first such (declaration order) and return to
idle; otherwise stay collecting. -/
def SequenceOverlay.handleKey (o : SequenceOverlay) (k : Key) : SequenceOverlay × SeqKeyResult :=
  let survivors := o.candidates.filterMap (seqAdvance k)
  match survivors.find? (fun c => c.progress == c.cmd.seq.length) with
  | some done => (⟨[]⟩, ⟨false, some (.prepareCustom done.cmd.action)⟩)
  | none =>
    if survivors.isEmpty then (⟨[]⟩, ⟨false, none⟩)
    else (⟨survivors⟩, ⟨true, none⟩)

/-- Drag state: the view registered as `m.dragTarget` plus the value its
`IsDragging()` method currently reports. -/
structure DragTarget where
  view : ViewId
  dragging : Bool
deriving DecidableEq, Repr

/-- Preview pane state (`internal/ui/preview`).  Modelled from the spec
for the accessor semantics (`AutoPosition`, `AtBottom`, `Visible`,
`SetPosition` store/read these fields; the preview package source is not
in this snapshot): `autoPos` is true while the position is the
auto-position heuristic rather than pinned by the user. -/
structure PreviewModel where
  autoPos : Bool
  atBottom : Bool
  visible : Bool
  percent : Nat
deriving DecidableEq, Repr

/-- Modelled from the spec: `preview.SetPosition(isAuto, atBottom)`
stores both flags. -/
def PreviewModel.setPosition (p : PreviewModel) (isAuto atBottom : Bool) : PreviewModel :=
  { p with autoPos := isAuto, atBottom := atBottom }

/-- The authoritative UI state of `ui.Model`.  Go pointer fields used as
overlay toggle slots (`leader`, `diff`, `stacked`, `oplog`, `password`,
`sequenceOverlay`, `dragTarget`) become `Option` values whose payload
abstracts the concrete sub-model; predicates evaluated on sub-models the
router consults (`revsetModel.Editing`, `status.IsFocused()`,
`revisions.IsEditing()`, `revisions.InNormalMode()`,
`revisions.CurrentOperation().Name()`, `flash.Any()`,
`state == common.Error`) become fields recording their current value. -/
structure Model where
  leader : Option Nat
  diff : Option Nat
  stacked : Option Nat
  oplog : Option Nat
  password : Option Nat
  revsetEditing : Bool
  statusFocused : Bool
  revisionsEditing : Bool
  currentOperationName : String
  revisionsInNormalMode : Bool
  stateError : Bool
  flashCount : Nat
  selectedRevisionExists : Bool
  sequenceOverlay : Option SequenceOverlay
  customCommands : List CustomCommand
  dragTarget : Option DragTarget
  diffFrame : Rect
  oplogFrame : Rect
  revisionsFrame : Rect
  previewFrame : Rect
  preview : PreviewModel
  width : Nat
  height : Nat
deriving DecidableEq, Repr

/-- Embeds the `common.CloseViewMsg` branch of
`Model.handleFocusInputMessage` (ui.go lines 76-94): returns the new
state, the command returned, and whether the message was handled. -/
def handleCloseView (m : Model) : Model × Option UICmd × Bool :=
  if m.leader.isSome then ({ m with leader := none }, none, true)
  else if m.diff.isSome then ({ m with diff := none }, none, true)
  else if m.stacked.isSome then ({ m with stacked := none }, none, true)
  else if m.oplog.isSome then ({ m with oplog := none }, some .selectionChanged, true)
  else (m, none, false)

/-- The overlay toggle slots dismissed by a Close event. -/
inductive CloseSlot where
  | leaderSlot
  | diffSlot
  | stackedSlot
  | oplogSlot
deriving DecidableEq, Repr

/-- The fixed precedence order the claim states for Close dismissal. -/
def closePrecedence : List CloseSlot :=
  [.leaderSlot, .diffSlot, .stackedSlot, .oplogSlot]

/-- Whether a given toggle slot is currently non-empty. -/
def slotActive (m : Model) : CloseSlot → Bool
  | .leaderSlot => m.leader.isSome
  | .diffSlot => m.diff.isSome
  | .stackedSlot => m.stacked.isSome
  | .oplogSlot => m.oplog.isSome

/-- Clears a single toggle slot, leaving every other field unchanged. -/
def clearSlot (m : Model) : CloseSlot → Model
  | .leaderSlot => { m with leader := none }
  | .diffSlot => { m with diff := none }
  | .stackedSlot => { m with stacked := none }
  | .oplogSlot => { m with oplog := none }

/-- The claim's specification of Close handling: clear the first
non-empty slot in the fixed precedence order, or report unhandled. -/
def closeSpec (m : Model) : Model × Bool :=
  match closePrecedence.find? (slotActive m) with
  | some s => (clearSlot m s, true)
  | none => (m, false)

/-- The surface a key event is routed to by `handleFocusInputMessage`. -/
inductive KeyRoute where
  | leaderRoute
  | passwordRoute
  | diffRoute
  | revsetRoute
  | statusRoute
  | revisionsRoute
  | stackedRoute
  | globalRoute
deriving DecidableEq, Repr

/-- Embeds the key-event routing of `Model.handleFocusInputMessage`
(ui.go lines 96-128): the leader check precedes the key switch, then the
`tea.KeyMsg` case tries password, diff, revset editing, focused status,
editing revisions, stacked modal in order; `globalRoute` means the
message was not handled and falls through to `Model.Update`'s own
dispatch. -/
def routeKeyMsg (m : Model) : KeyRoute :=
  if m.leader.isSome then .leaderRoute
  else if m.password.isSome then .passwordRoute
  else if m.diff.isSome then .diffRoute
  else if m.revsetEditing then .revsetRoute
  else if m.statusFocused then .statusRoute
  else if m.revisionsEditing then .revisionsRoute
  else if m.stacked.isSome then .stackedRoute
  else .globalRoute

/-- The routing order claim C2 states (it omits the editing-revisions
surface): password, diff, revset editor, focused status field, stacked
modal. -/
def claimedKeyRoute (m : Model) : KeyRoute :=
  if m.password.isSome then .passwordRoute
  else if m.diff.isSome then .diffRoute
  else if m.revsetEditing then .revsetRoute
  else if m.statusFocused then .statusRoute
  else if m.stacked.isSome then .stackedRoute
  else .globalRoute

/-- The exclusive-focus surfaces in the order the code consults them. -/
def focusSurfaceOrder : List KeyRoute :=
  [.passwordRoute, .diffRoute, .revsetRoute, .statusRoute, .revisionsRoute, .stackedRoute]

/-- Whether the surface behind a route is currently active. -/
def surfaceActive (m : Model) : KeyRoute → Bool
  | .leaderRoute => m.leader.isSome
  | .passwordRoute => m.password.isSome
  | .diffRoute => m.diff.isSome
  | .revsetRoute => m.revsetEditing
  | .statusRoute => m.statusFocused
  | .revisionsRoute => m.revisionsEditing
  | .stackedRoute => m.stacked.isSome
  | .globalRoute => false

/-- Embeds `Model.isSafeToQuit` (ui.go lines 560-571). -/
def isSafeToQuit (m : Model) : Bool :=
  if m.stacked.isSome then false
  else if m.oplog.isSome then false
  else if m.currentOperationName = "normal" then true
  else false

/-- A convenient fully-inactive base state used for concrete scenarios. -/
def baseModel : Model where
  leader := none
  diff := none
  stacked := none
  oplog := none
  password := none
  revsetEditing := false
  statusFocused := false
  revisionsEditing := false
  currentOperationName := "normal"
  revisionsInNormalMode := true
  stateError := false
  flashCount := 0
  selectedRevisionExists := true
  sequenceOverlay := none
  customCommands := []
  dragTarget := none
  diffFrame := ⟨0, 0, 0, 0⟩
  oplogFrame := ⟨0, 0, 0, 0⟩
  revisionsFrame := ⟨0, 0, 0, 0⟩
  previewFrame := ⟨0, 0, 0, 0⟩
  preview := ⟨true, false, false, 50⟩
  width := 80
  height := 24

/-- C1: processing a Close event dismisses exactly one active overlay in
the fixed precedence order leader, diff, stacked modal, op-log (first
non-empty slot cleared, all other state unchanged), and reports the event
unhandled exactly when all four slots are empty. -/
theorem close_event_precedence (m : Model) :
    (handleCloseView m).1 = (closeSpec m).1 ∧ (handleCloseView m).2.2 = (closeSpec m).2 := by
  unfold handleCloseView closeSpec closePrecedence slotActive clearSlot
  cases hl : m.leader <;> cases hd : m.diff <;> cases hs : m.stacked <;> cases ho : m.oplog <;>
    simp [List.find?, hl, hd, hs, ho]

/-- C2 counterexample: in a state where the revisions view is editing
(for example, a details operation is active) and a stacked modal is also
open, the code routes the key to the revisions view, while the claim's
order (which omits that surface) would route it to the stacked modal. -/
def c2CexModel : Model :=
  { baseModel with revisionsEditing := true, stacked := some 1 }

/-- C2 is false as stated: the router does not follow the claimed
five-surface order on `c2CexModel`. -/
theorem key_routing_claim_counterexample :
    routeKeyMsg c2CexModel = KeyRoute.revisionsRoute ∧
      claimedKeyRoute c2CexModel = KeyRoute.stackedRoute ∧
      routeKeyMsg c2CexModel ≠ claimedKeyRoute c2CexModel := by
  decide

/-- C2 amended: for key events with leader mode inactive, the router
delivers to the first active surface in the order password, diff, revset
editor in edit mode, focused status field, revisions view in an editing
operation, stacked modal, and falls through to global handling exactly
when none of the six is active. -/
theorem key_routing_amended (m : Model) (h : m.leader = none) :
    routeKeyMsg m = (focusSurfaceOrder.find? (surfaceActive m)).getD .globalRoute := by
  unfold routeKeyMsg focusSurfaceOrder surfaceActive
  rw [h]
  cases hp : m.password <;> cases hd : m.diff <;> cases hrv : m.revsetEditing <;>
    cases hst : m.statusFocused <;> cases hre : m.revisionsEditing <;> cases hsk : m.stacked <;>
      simp [List.find?, hp, hd, hrv, hst, hre, hsk]

/-- Witness for the amended C2 routing on a concrete state. -/
def c2WitnessModel : Model :=
  { baseModel with statusFocused := true, stacked := some 2 }

/-- Witness: the amended routing theorem applied at `c2WitnessModel`. -/
theorem key_routing_amended_witness :
    routeKeyMsg c2WitnessModel =
      (focusSurfaceOrder.find? (surfaceActive c2WitnessModel)).getD .globalRoute :=
  key_routing_amended c2WitnessModel rfl

/-- C4: `isSafeToQuit` is true exactly when no stacked modal is open, no
op-log view is open, and the primary view's current operation is the
normal mode; in particular it is false whenever a stacked modal or op-log
view is open or the operation is not normal. -/
theorem isSafeToQuit_characterization (m : Model) :
    isSafeToQuit m =
      (m.stacked.isNone && m.oplog.isNone && decide (m.currentOperationName = "normal")) := by
  unfold isSafeToQuit
  cases hs : m.stacked <;> cases ho : m.oplog <;>
    by_cases hn : m.currentOperationName = "normal" <;> simp [hs, ho, hn]

/-- Embeds `Model.shouldStartSequenceOverlay` (ui.go lines 158-169):
some custom command has a non-empty sequence, is applicable to the
selected item, and its first chord matches the key. -/
def shouldStartSequenceOverlay (m : Model) (k : Key) : Bool :=
  m.customCommands.any (fun c =>
    match c.seq with
    | [] => false
    | ch :: _ => c.applicable && chordMatches k ch)

/-- Embeds `Model.ensureSequenceOverlay` (ui.go lines 146-156): returns
the existing overlay, or a freshly created one when the key should start
a sequence, or `none`. -/
def ensureSequenceOverlay (m : Model) (k : Key) : Option SequenceOverlay :=
  match m.sequenceOverlay with
  | some o => some o
  | none =>
    if shouldStartSequenceOverlay m k then some (newSequenceOverlay m.customCommands)
    else none

/-- Embeds `Model.handleCustomCommandSequence` (ui.go lines 131-144). -/
def handleCustomCommandSequence (m : Model) (k : Key) : Model × Option UICmd :=
  match ensureSequenceOverlay m k with
  | none => (m, none)
  | some o =>
    let r := o.handleKey k
    if r.2.active then ({ m with sequenceOverlay := some r.1 }, r.2.cmd)
    else ({ m with sequenceOverlay := none }, r.2.cmd)

/-- Outcome of the sequence-matcher phase of `Model.Update`'s key case. -/
inductive KeyPhaseOutcome where
  | consumed (cmd : Option UICmd)
  | swallowed
  | globalHandling
deriving DecidableEq, Repr

/-- Embeds the head of the `tea.KeyMsg` case of `Model.Update` (ui.go
lines 214-224): the sequence handler runs first; if it produced a command
or the overlay is (still) active, the key is consumed; if the overlay was
active before the key but matched nothing, the key is swallowed;
otherwise handling falls through to the global key dispatch. -/
def keySequencePhase (m : Model) (k : Key) : Model × KeyPhaseOutcome :=
  let wasCollecting := m.sequenceOverlay.isSome
  let r := handleCustomCommandSequence m k
  if r.2.isSome || r.1.sequenceOverlay.isSome then (r.1, .consumed r.2)
  else if wasCollecting then (r.1, .swallowed)
  else (r.1, .globalHandling)

/-- C3: while the matcher is idle, the key is consumed by the matcher
exactly when some applicable custom command's non-empty sequence starts
with a matching chord (otherwise the state is unchanged and the key falls
through); while the matcher is collecting, a key matching no remaining
candidate returns the matcher to idle, invokes no command, and the key is
swallowed. -/
theorem sequence_matcher_idle_collecting (m : Model) (k : Key) :
    (m.sequenceOverlay = none →
      (((keySequencePhase m k).2 ≠ .globalHandling) ↔ shouldStartSequenceOverlay m k = true) ∧
        (shouldStartSequenceOverlay m k = false → keySequencePhase m k = (m, .globalHandling))) ∧
      (∀ o : SequenceOverlay, m.sequenceOverlay = some o →
        o.candidates.filterMap (seqAdvance k) = [] →
          keySequencePhase m k = ({ m with sequenceOverlay := none }, .swallowed)) := by
  constructor
  · intro hidle
    by_cases hstart : shouldStartSequenceOverlay m k = true
    · refine ⟨⟨fun _ => hstart, fun _ => ?_⟩, fun habs => absurd hstart (by simp [habs])⟩
      have hsurv : (newSequenceOverlay m.customCommands).candidates.filterMap (seqAdvance k) ≠ [] := by
        rw [shouldStartSequenceOverlay, List.any_eq_true] at hstart
        obtain ⟨c, hc, hcprop⟩ := hstart
        cases hseq : c.seq with
        | nil => rw [hseq] at hcprop; exact absurd hcprop (by simp)
        | cons ch rest =>
          rw [hseq] at hcprop
          simp only [Bool.and_eq_true] at hcprop
          intro hnil
          rw [List.filterMap_eq_nil_iff] at hnil
          have hmem : (⟨c, 0⟩ : SeqCandidate) ∈ (newSequenceOverlay m.customCommands).candidates := by
            unfold newSequenceOverlay
            simp only [List.mem_map, List.mem_filter]
            exact ⟨c, ⟨hc, by simp [hseq, hcprop.1]⟩, rfl⟩
          have := hnil _ hmem
          rw [seqAdvance] at this
          simp [hseq, hcprop.2] at this
      unfold keySequencePhase handleCustomCommandSequence ensureSequenceOverlay
      rw [hidle]
      simp only [hstart, if_true]
      unfold SequenceOverlay.handleKey
      cases hfind : ((newSequenceOverlay m.customCommands).candidates.filterMap (seqAdvance k)).find?
          (fun c => c.progress == c.cmd.seq.length) with
      | some done => simp [hfind]
      | none => simp [hfind, List.isEmpty_iff, hsurv]
    · have hstart' : shouldStartSequenceOverlay m k = false := by
        cases h : shouldStartSequenceOverlay m k
        · rfl
        · exact absurd h hstart
      have hcomp : keySequencePhase m k = (m, .globalHandling) := by
        unfold keySequencePhase handleCustomCommandSequence ensureSequenceOverlay
        rw [hidle]
        simp [hstart', hidle]
      refine ⟨⟨fun hne => ?_, fun htrue => absurd htrue hstart⟩, fun _ => hcomp⟩
      exact absurd (show (keySequencePhase m k).2 = .globalHandling by rw [hcomp]) hne
  · intro o ho hnil
    have hk : o.handleKey k = (⟨[]⟩, ⟨false, none⟩) := by
      simp [SequenceOverlay.handleKey, hnil]
    unfold keySequencePhase handleCustomCommandSequence ensureSequenceOverlay
    rw [ho]
    simp [ho, hk]

/-- Concrete command used by the C3 witness. -/
def c3Command : CustomCommand := ⟨[⟨9⟩], [[⟨1⟩], [⟨2⟩]], true, 7⟩

/-- Concrete idle state for the C3 witness. -/
def c3IdleModel : Model := { baseModel with customCommands := [c3Command] }

/-- Concrete collecting state for the C3 witness: the first chord of
`c3Command` has been matched. -/
def c3CollectingModel : Model :=
  { baseModel with customCommands := [c3Command], sequenceOverlay := some ⟨[⟨c3Command, 1⟩]⟩ }

/-- Witness: the C3 theorem at concrete idle and collecting states — a
matching key is consumed while idle, a non-matching key while idle is
unchanged-and-falls-through, and a non-matching key while collecting is
swallowed with the matcher reset. -/
theorem sequence_matcher_witness :
    ((keySequencePhase c3IdleModel ⟨1⟩).2 ≠ .globalHandling) ∧
      keySequencePhase c3IdleModel ⟨5⟩ = (c3IdleModel, .globalHandling) ∧
      keySequencePhase c3CollectingModel ⟨5⟩ =
        ({ c3CollectingModel with sequenceOverlay := none }, .swallowed) := by
  refine ⟨((sequence_matcher_idle_collecting c3IdleModel ⟨1⟩).1 rfl).1.mpr (by decide), ?_, ?_⟩
  · exact ((sequence_matcher_idle_collecting c3IdleModel ⟨5⟩).1 rfl).2 (by decide)
  · exact (sequence_matcher_idle_collecting c3CollectingModel ⟨5⟩).2 ⟨[⟨c3Command, 1⟩]⟩
      (by rfl) (by decide)

/-- Mouse action kinds of `tea.MouseMsg` relevant to the router. -/
inductive MouseAction where
  | press
  | release
  | motion
deriving DecidableEq, Repr

/-- Mouse buttons of `tea.MouseMsg` relevant to the router. -/
inductive MouseButton where
  | left
  | right
  | middle
  | noButton
deriving DecidableEq, Repr

/-- A mouse event: action, button and cell coordinates. -/
structure MouseEvent where
  action : MouseAction
  button : MouseButton
  x : Int
  y : Int
deriving DecidableEq, Repr

/-- Embeds `Model.findViewAt` (ui.go lines 573-589): hit-test against
diff, op-log, revisions (only when the op-log is closed), preview. -/
def findViewAt (m : Model) (x y : Int) : Option ViewId :=
  if m.diff.isSome && m.diffFrame.contains x y then some .diffView
  else if m.oplog.isSome && m.oplogFrame.contains x y then some .oplogView
  else if m.oplog.isNone && m.revisionsFrame.contains x y then some .revisionsView
  else if m.preview.visible && m.previewFrame.contains x y then some .previewView
  else none

/-- The result of routing one mouse event. -/
inductive MouseOutcome where
  | dropped
  | dragEnd
  | dragMove
  | dragStarted (v : ViewId)
  | delivered (v : ViewId)
deriving DecidableEq, Repr

/-- Hit-test phase of the `tea.MouseMsg` case of `Model.Update` (ui.go
lines 204-213): deliver to the view under the cursor, first letting a
left-button press start a drag when the view is draggable and its
`DragStart` accepts.  `dv` records which views implement
`common.Draggable`; `ds` records whether `DragStart` succeeds there
(both live in sub-model code outside this snapshot). -/
def mouseHitPhase (dv : ViewId → Bool) (ds : ViewId → Int → Int → Bool)
    (m : Model) (e : MouseEvent) : Model × MouseOutcome :=
  match findViewAt m e.x e.y with
  | some v =>
    if dv v && (e.action == .press) && (e.button == .left) then
      if ds v e.x e.y then ({ m with dragTarget := some ⟨v, true⟩ }, .dragStarted v)
      else (m, .delivered v)
    else (m, .delivered v)
  | none => (m, .dropped)

/-- Embeds the `tea.MouseMsg` case of `Model.Update` (ui.go lines
186-213): all mouse events are dropped while a stacked modal is open;
otherwise a dragging target captures release (clearing the target) and
motion, a stale non-dragging target is cleared, and remaining events are
hit-tested. -/
def mouseUpdate (dv : ViewId → Bool) (ds : ViewId → Int → Int → Bool)
    (m : Model) (e : MouseEvent) : Model × MouseOutcome :=
  if m.stacked.isSome then (m, .dropped)
  else
    match m.dragTarget with
    | some t =>
      if t.dragging then
        match e.action with
        | .release => ({ m with dragTarget := none }, .dragEnd)
        | .motion => (m, .dragMove)
        | .press => mouseHitPhase dv ds m e
      else mouseHitPhase dv ds { m with dragTarget := none } e
    | none => mouseHitPhase dv ds m e

/-- The z-order the claim describes for hit-testing, restricted to the
surfaces that actually receive mouse input. -/
def mouseSurfaceOrder : List ViewId := [.diffView, .oplogView, .revisionsView, .previewView]

/-- Whether a surface currently participates in mouse hit-testing. -/
def surfaceMouseActive (m : Model) : ViewId → Bool
  | .diffView => m.diff.isSome
  | .oplogView => m.oplog.isSome
  | .revisionsView => m.oplog.isNone
  | .previewView => m.preview.visible

/-- The frame rectangle of each mouse-aware surface. -/
def surfaceFrame (m : Model) : ViewId → Rect
  | .diffView => m.diffFrame
  | .oplogView => m.oplogFrame
  | .revisionsView => m.revisionsFrame
  | .previewView => m.previewFrame

/-- First-hit specification of the hit-test: the first surface in the
fixed z-order that is active and whose frame contains the point. -/
def zOrderFirstHit (m : Model) (x y : Int) : Option ViewId :=
  mouseSurfaceOrder.find? (fun v => surfaceMouseActive m v && (surfaceFrame m v).contains x y)

/-- Draggability map used by concrete C5 scenarios. -/
def c5Draggable : ViewId → Bool := fun _ => false

/-- DragStart acceptance map used by concrete C5 scenarios. -/
def c5DragStartOk : ViewId → Int → Int → Bool := fun _ _ _ => false

/-- Concrete state refuting C5: a stacked modal is open while a drag is
in progress. -/
def c5CexModel : Model :=
  { baseModel with stacked := some 0, dragTarget := some ⟨.revisionsView, true⟩ }

/-- Concrete motion event for the C5 counterexample. -/
def c5CexEvent : MouseEvent := ⟨.motion, .noButton, 3, 4⟩

/-- C5 is false as stated: with a stacked modal open, a motion event
during a drag is dropped (ui.go line 187-189) instead of being routed to
the drag target as the claim requires. -/
theorem mouse_routing_counterexample :
    (mouseUpdate c5Draggable c5DragStartOk c5CexModel c5CexEvent).2 = MouseOutcome.dropped ∧
      (mouseUpdate c5Draggable c5DragStartOk c5CexModel c5CexEvent).2 ≠ MouseOutcome.dragMove := by
  decide

/-- C5 amended: while a stacked modal is open every mouse event is
dropped; otherwise, with a dragging target, release is routed to it as a
drag end and clears the target and motion is routed as a drag move; with
no drag target the event is hit-tested in the fixed z-order diff, op-log,
revisions (when the op-log is closed), preview — the code's `findViewAt`
agrees with the first-hit specification — a left press on a draggable
hit whose DragStart accepts starts a new drag, every other hit is
delivered to the first-hit surface (in particular any hit that is not a
left press on a draggable view, and a left press on a draggable view
whose DragStart refuses), and an event hitting no surface is dropped. -/
theorem mouse_routing_amended (dv : ViewId → Bool) (ds : ViewId → Int → Int → Bool)
    (m : Model) (e : MouseEvent) :
    (m.stacked.isSome = true → mouseUpdate dv ds m e = (m, .dropped)) ∧
      (m.stacked = none → ∀ t : DragTarget, m.dragTarget = some t → t.dragging = true →
        (e.action = .release → mouseUpdate dv ds m e = ({ m with dragTarget := none }, .dragEnd)) ∧
          (e.action = .motion → mouseUpdate dv ds m e = (m, .dragMove))) ∧
      (findViewAt m e.x e.y = zOrderFirstHit m e.x e.y) ∧
      (m.stacked = none → m.dragTarget = none →
        (findViewAt m e.x e.y = none → mouseUpdate dv ds m e = (m, .dropped)) ∧
          (∀ v : ViewId, findViewAt m e.x e.y = some v →
            dv v = true → e.action = .press → e.button = .left → ds v e.x e.y = true →
              mouseUpdate dv ds m e = ({ m with dragTarget := some ⟨v, true⟩ }, .dragStarted v)) ∧
          (∀ v : ViewId, findViewAt m e.x e.y = some v →
            (dv v && (e.action == .press) && (e.button == .left)) = false →
              mouseUpdate dv ds m e = (m, .delivered v)) ∧
          (∀ v : ViewId, findViewAt m e.x e.y = some v → ds v e.x e.y = false →
            mouseUpdate dv ds m e = (m, .delivered v))) := by
  refine ⟨fun hs => ?_, fun hs t ht hdrag => ?_, ?_,
    fun hs hdt => ⟨fun hmiss => ?_, ?_, ?_, ?_⟩⟩
  · unfold mouseUpdate
    simp [hs]
  · unfold mouseUpdate
    constructor
    · intro ha
      simp [hs, ht, hdrag, ha]
    · intro ha
      simp [hs, ht, hdrag, ha]
  · unfold findViewAt zOrderFirstHit mouseSurfaceOrder surfaceMouseActive surfaceFrame
    cases hd : m.diff <;> cases ho : m.oplog <;>
      cases hdc : m.diffFrame.contains e.x e.y <;>
        cases hoc : m.oplogFrame.contains e.x e.y <;>
          cases hrc : m.revisionsFrame.contains e.x e.y <;>
            cases hpv : m.preview.visible <;>
              cases hpc : m.previewFrame.contains e.x e.y <;>
                simp [List.find?, hd, ho, hdc, hoc, hrc, hpv, hpc]
  · unfold mouseUpdate mouseHitPhase
    simp [hs, hdt, hmiss]
  · intro v hv hdv ha hb hds
    unfold mouseUpdate mouseHitPhase
    simp [hs, hdt, hv, hdv, ha, hb, hds]
  · intro v hv hc
    unfold mouseUpdate mouseHitPhase
    simp [hs, hdt, hv, hc]
  · intro v hv hds
    unfold mouseUpdate mouseHitPhase
    cases hc : (dv v && (e.action == .press) && (e.button == .left)) <;>
      simp [hs, hdt, hv, hc, hds]

/-- Concrete no-modal dragging state for the C5 witness. -/
def c5WitnessModel : Model := { baseModel with dragTarget := some ⟨.previewView, true⟩ }

/-- Concrete no-modal, no-drag state for the C5 witness whose diff view
frame contains the witness event's coordinates. -/
def c5DeliverModel : Model := { baseModel with diff := some 1, diffFrame := ⟨0, 0, 100, 100⟩ }

/-- Witness: the amended C5 theorem applied at concrete states — a
motion event during a drag with no modal open is routed as a drag move,
a motion event with no modal and no drag hitting the diff view is
delivered to it, and in the counterexample state (modal open) the event
is dropped. -/
theorem mouse_routing_amended_witness :
    mouseUpdate c5Draggable c5DragStartOk c5WitnessModel c5CexEvent = (c5WitnessModel, .dragMove) ∧
      mouseUpdate c5Draggable c5DragStartOk c5DeliverModel c5CexEvent =
        (c5DeliverModel, .delivered .diffView) ∧
      mouseUpdate c5Draggable c5DragStartOk c5CexModel c5CexEvent = (c5CexModel, .dropped) := by
  refine ⟨?_, ?_, ?_⟩
  · exact (((mouse_routing_amended c5Draggable c5DragStartOk c5WitnessModel c5CexEvent).2.1
      rfl ⟨.previewView, true⟩ rfl rfl).2 rfl)
  · exact (((mouse_routing_amended c5Draggable c5DragStartOk c5DeliverModel c5CexEvent).2.2.2
      rfl rfl).2.2.1 .diffView (by decide) (by decide))
  · exact (mouse_routing_amended c5Draggable c5DragStartOk c5CexModel c5CexEvent).1 rfl

/-- Messages seen by the render wrapper: the internal `frameTickMsg` or
any other message forwarded to the inner model. -/
inductive WMsg (μ : Type) where
  | frameTick
  | other (msg : μ)

/-- Embeds the `wrapper` struct of ui.go (lines 593-601), generic over
the inner model state `σ` (in the source, `*Model`). -/
structure Wrapper (σ : Type) where
  ui : σ
  scheduledNextFrame : Bool
  render : Bool
  cachedFrame : String
deriving DecidableEq, Repr

/-- Embeds `wrapper.Update` (ui.go lines 607-622): a frame tick marks the
cache dirty and clears the scheduled flag; any other message updates the
inner model and schedules a new frame tick (at the fixed 8 ms interval)
only when none is pending.  The boolean result records whether a tick
command was scheduled by this step. -/
def wrapperUpdate {σ μ : Type} (up : σ → μ → σ) (w : Wrapper σ) (msg : WMsg μ) :
    Wrapper σ × Bool :=
  match msg with
  | .frameTick => ({ w with render := true, scheduledNextFrame := false }, false)
  | .other m =>
    if !w.scheduledNextFrame then
      ({ w with ui := up w.ui m, scheduledNextFrame := true }, true)
    else ({ w with ui := up w.ui m }, false)

/-- Embeds `wrapper.View` (ui.go lines 624-630): recompute the composited
frame only when the render flag is set, otherwise return the cache.
Returns the output together with the mutated wrapper. -/
def wrapperView {σ : Type} (view : σ → String) (w : Wrapper σ) : String × Wrapper σ :=
  if w.render then (view w.ui, { w with cachedFrame := view w.ui, render := false })
  else (w.cachedFrame, w)

/-- Processes a list of non-tick events through the wrapper. -/
def wrapperProcessOthers {σ μ : Type} (up : σ → μ → σ) (w : Wrapper σ) (msgs : List μ) :
    Wrapper σ :=
  msgs.foldl (fun s m => (wrapperUpdate up s (.other m)).1) w

/-- Non-tick processing never touches the render flag or the cache. -/
theorem wrapperProcessOthers_render_cache {σ μ : Type} (up : σ → μ → σ)
    (w : Wrapper σ) (msgs : List μ) :
    (wrapperProcessOthers up w msgs).render = w.render ∧
      (wrapperProcessOthers up w msgs).cachedFrame = w.cachedFrame := by
  induction msgs generalizing w with
  | nil => exact ⟨rfl, rfl⟩
  | cons m rest ih =>
    have hstep : ∀ w' : Wrapper σ,
        (wrapperUpdate up w' (.other m)).1.render = w'.render ∧
          (wrapperUpdate up w' (.other m)).1.cachedFrame = w'.cachedFrame := by
      intro w'
      unfold wrapperUpdate
      cases w'.scheduledNextFrame <;> simp
    have := ih ((wrapperUpdate up w (.other m)).1)
    unfold wrapperProcessOthers at this ⊢
    simp only [List.foldl_cons]
    exact ⟨this.1.trans (hstep w).1, this.2.trans (hstep w).2⟩

/-- When the render flag is clear, `View` returns the cache unchanged. -/
theorem wrapperView_not_render {σ : Type} (view : σ → String) (w : Wrapper σ)
    (h : w.render = false) : wrapperView view w = (w.cachedFrame, w) := by
  unfold wrapperView
  simp [h]

/-- C6: the render wrapper recomputes only after a frame tick — two
consecutive `View` calls with any sequence of non-tick events processed
between them return identical output; a non-tick update never changes the
render flag or the cached frame; and a non-tick update schedules a frame
tick exactly when none is pending, leaving one pending afterwards. -/
theorem render_cache_behavior {σ μ : Type} (up : σ → μ → σ) (view : σ → String)
    (w : Wrapper σ) (msgs : List μ) (m : μ) :
    (wrapperView view (wrapperProcessOthers up (wrapperView view w).2 msgs)).1 =
        (wrapperView view w).1 ∧
      ((wrapperUpdate up w (.other m)).1.render = w.render ∧
        (wrapperUpdate up w (.other m)).1.cachedFrame = w.cachedFrame) ∧
      ((wrapperUpdate up w (.other m)).2 = !w.scheduledNextFrame ∧
        (wrapperUpdate up w (.other m)).1.scheduledNextFrame = true) := by
  refine ⟨?_, ?_, ?_⟩
  · have hafter : (wrapperView view w).2.render = false ∧
        (wrapperView view w).2.cachedFrame = (wrapperView view w).1 := by
      unfold wrapperView
      cases hr : w.render <;> simp [hr]
    have hrc := wrapperProcessOthers_render_cache up (wrapperView view w).2 msgs
    rw [wrapperView_not_render view _ (hrc.1.trans hafter.1)]
    exact hrc.2.trans hafter.2
  · unfold wrapperUpdate
    cases w.scheduledNextFrame <;> simp
  · unfold wrapperUpdate
    cases w.scheduledNextFrame <;> simp

/-- Key bindings consulted by `Model.Update` and the details operation,
embedding the relevant fields of `config.KeyMappings[key.Binding]`. -/
structure KeyMap where
  cancel : Chord
  quit : Chord
  oplogMode : Chord
  revset : Chord
  gitMode : Chord
  undo : Chord
  redo : Chord
  bookmarkMode : Chord
  help : Chord
  previewMode : Chord
  previewToggleBottom : Chord
  previewExpand : Chord
  previewShrink : Chord
  customCommandsKey : Chord
  leaderKey : Chord
  fileSearchToggle : Chord
  quickSearch : Chord
  suspendKey : Chord
  up : Chord
  down : Chord
  refreshKey : Chord
  detailsClose : Chord
  detailsDiff : Chord
  detailsSplit : Chord
  detailsSplitParallel : Chord
  detailsSquash : Chord
  detailsRestore : Chord
  detailsAbsorb : Chord
  detailsToggleSelect : Chord
  detailsRevisionsChangingFile : Chord
deriving DecidableEq, Repr

/-- Modelled from the spec: `preview.ToggleVisible` flips visibility (the
preview package source is not in this snapshot). -/
def PreviewModel.toggleVisible (p : PreviewModel) : PreviewModel :=
  { p with visible := !p.visible }

/-- Modelled from the spec: `preview.Expand` grows the preview share of
the split. -/
def PreviewModel.expand (p : PreviewModel) : PreviewModel :=
  { p with percent := p.percent + 1 }

/-- Modelled from the spec: `preview.Shrink` shrinks the preview share of
the split. -/
def PreviewModel.shrink (p : PreviewModel) : PreviewModel :=
  { p with percent := p.percent - 1 }

/-- Embeds the global key-binding switch of `Model.Update` (ui.go lines
226-320), reached only after focus routing and the sequence matcher both
declined the key.  Each case returns the mutated state and the command
the source returns there (`none` both for an empty `tea.Batch` and for
falling through to the broadcast section at the end of `Update`). -/
def globalKeyDispatch (km : KeyMap) (m : Model) (k : Key) : Model × Option UICmd :=
  if chordMatches k km.cancel && m.stateError then ({ m with stateError := false }, none)
  else if chordMatches k km.cancel && m.stacked.isSome then ({ m with stacked := none }, none)
  else if chordMatches k km.cancel && decide (0 < m.flashCount) then
    ({ m with flashCount := m.flashCount - 1 }, none)
  else if chordMatches k km.quit && isSafeToQuit m then (m, some .quit)
  else if chordMatches k km.oplogMode then ({ m with oplog := some 0 }, some .initOplog)
  else if chordMatches k km.revset && m.revisionsInNormalMode then (m, some .editRevset)
  else if chordMatches k km.gitMode && m.revisionsInNormalMode then
    ({ m with stacked := some 1 }, some .initStacked)
  else if chordMatches k km.undo && m.revisionsInNormalMode then
    ({ m with stacked := some 2 }, some .initStacked)
  else if chordMatches k km.redo && m.revisionsInNormalMode then
    ({ m with stacked := some 3 }, some .initStacked)
  else if chordMatches k km.bookmarkMode && m.revisionsInNormalMode then
    ({ m with stacked := some 4 }, some .initStacked)
  else if chordMatches k km.help then (m, some .toggleHelp)
  else if chordMatches k km.previewMode || chordMatches k km.previewToggleBottom then
    if chordMatches k km.previewToggleBottom then
      if (m.preview.setPosition false (!m.preview.atBottom)).visible then
        ({ m with preview := m.preview.setPosition false (!m.preview.atBottom) }, none)
      else
        ({ m with preview := (m.preview.setPosition false (!m.preview.atBottom)).toggleVisible },
          some .selectionChanged)
    else ({ m with preview := m.preview.toggleVisible }, some .selectionChanged)
  else if chordMatches k km.previewExpand && m.preview.visible then
    ({ m with preview := m.preview.expand }, none)
  else if chordMatches k km.previewShrink && m.preview.visible then
    ({ m with preview := m.preview.shrink }, none)
  else if chordMatches k km.customCommandsKey then
    ({ m with stacked := some 5 }, some .initStacked)
  else if chordMatches k km.leaderKey then ({ m with leader := some 0 }, some .initLeader)
  else if chordMatches k km.fileSearchToggle then
    if m.selectedRevisionExists then (m, some .fileSearch) else (m, none)
  else if chordMatches k km.quickSearch && m.oplog.isSome then (m, none)
  else if chordMatches k km.suspendKey then (m, some .suspendProc)
  else
    match m.customCommands.find? (fun c => c.applicable && chordMatches k c.binding) with
    | some c => (m, some (.prepareCustom c.action))
    | none => (m, none)

/-- Embeds the command returned by the details operation's
`internalUpdate` on a key message (details.go lines 110-231).
`confirmationActive` is whether `s.confirmation != nil` (in which case
the key is delegated to the confirmation model); `hasCurrent` is whether
`s.current()` is non-nil.  Branches whose only effect is local state
mutation (cursor moves, selection toggling) return `none`, matching the
nil command the source returns there. -/
def detailsInternalUpdateCmd (km : KeyMap) (confirmationActive hasCurrent : Bool)
    (k : Key) : Option UICmd :=
  if confirmationActive then some .delegatedToConfirmation
  else if chordMatches k km.up then none
  else if chordMatches k km.down then none
  else if chordMatches k km.cancel || chordMatches k km.detailsClose then some .close
  else if chordMatches k km.quit then some .quit
  else if chordMatches k km.refreshKey then some .refresh
  else if chordMatches k km.detailsDiff then
    if hasCurrent then some .runDiffCmd else none
  else if chordMatches k km.detailsSplit || chordMatches k km.detailsSplitParallel then
    some .confirmationOpened
  else if chordMatches k km.detailsSquash then some .invokeStartSquash
  else if chordMatches k km.detailsRestore then some .confirmationOpened
  else if chordMatches k km.detailsAbsorb then some .confirmationOpened
  else if chordMatches k km.detailsToggleSelect then none
  else if chordMatches k km.detailsRevisionsChangingFile then
    if hasCurrent then some .closeAndUpdateRevset else none
  else none

/-- Concrete key map for the C7 counterexample: every binding is a
distinct single key. -/
def c7KeyMap : KeyMap where
  cancel := [⟨0⟩]
  quit := [⟨1⟩]
  oplogMode := [⟨2⟩]
  revset := [⟨3⟩]
  gitMode := [⟨4⟩]
  undo := [⟨5⟩]
  redo := [⟨6⟩]
  bookmarkMode := [⟨7⟩]
  help := [⟨8⟩]
  previewMode := [⟨9⟩]
  previewToggleBottom := [⟨10⟩]
  previewExpand := [⟨11⟩]
  previewShrink := [⟨12⟩]
  customCommandsKey := [⟨13⟩]
  leaderKey := [⟨14⟩]
  fileSearchToggle := [⟨15⟩]
  quickSearch := [⟨16⟩]
  suspendKey := [⟨17⟩]
  up := [⟨18⟩]
  down := [⟨19⟩]
  refreshKey := [⟨20⟩]
  detailsClose := [⟨21⟩]
  detailsDiff := [⟨22⟩]
  detailsSplit := [⟨23⟩]
  detailsSplitParallel := [⟨24⟩]
  detailsSquash := [⟨25⟩]
  detailsRestore := [⟨26⟩]
  detailsAbsorb := [⟨27⟩]
  detailsToggleSelect := [⟨28⟩]
  detailsRevisionsChangingFile := [⟨29⟩]

/-- Concrete state for the C7 counterexample: the details operation is
the current operation of the revisions view (so the view is editing and
quitting is not safe), no confirmation dialog is open. -/
def c7CexModel : Model :=
  { baseModel with currentOperationName := "details", revisionsEditing := true, revisionsInNormalMode := false }

/-- C7 is false as stated: in a state whose current operation is the
details operation — reachable by pressing the details key in the normal
mode — `isSafeToQuit` is false, key events route to the revisions view
(and hence to the details operation), and the details operation's update
emits the quit command on the quit key (details.go line 125-126) without
consulting `isSafeToQuit`. -/
theorem quit_gating_counterexample :
    isSafeToQuit c7CexModel = false ∧
      routeKeyMsg c7CexModel = KeyRoute.revisionsRoute ∧
      detailsInternalUpdateCmd c7KeyMap false true ⟨1⟩ = some UICmd.quit := by
  decide

/-- C7 amended: the top-level router emits the quit command only for a
key matching the quit binding and only when `isSafeToQuit` holds, but the
details operation additionally emits quit for the quit key whenever no
confirmation dialog is open, without any `isSafeToQuit` gate. -/
theorem quit_gating_amended (km : KeyMap) (m : Model) (k : Key)
    (conf hasCur : Bool) :
    ((globalKeyDispatch km m k).2 = some .quit →
      chordMatches k km.quit = true ∧ isSafeToQuit m = true) ∧
      (detailsInternalUpdateCmd km conf hasCur k = some .quit →
        conf = false ∧ chordMatches k km.quit = true) := by
  constructor
  · intro h
    unfold globalKeyDispatch at h
    by_cases h1 : (chordMatches k km.cancel && m.stateError) = true
    · rw [if_pos h1] at h
      exact Option.noConfusion h
    rw [if_neg h1] at h
    by_cases h2 : (chordMatches k km.cancel && m.stacked.isSome) = true
    · rw [if_pos h2] at h
      exact Option.noConfusion h
    rw [if_neg h2] at h
    by_cases h3 : (chordMatches k km.cancel && decide (0 < m.flashCount)) = true
    · rw [if_pos h3] at h
      exact Option.noConfusion h
    rw [if_neg h3] at h
    by_cases h4 : (chordMatches k km.quit && isSafeToQuit m) = true
    · simpa using h4
    rw [if_neg h4] at h
    by_cases h5 : chordMatches k km.oplogMode = true
    · rw [if_pos h5] at h
      exact UICmd.noConfusion (Option.some.inj h)
    rw [if_neg h5] at h
    by_cases h6 : (chordMatches k km.revset && m.revisionsInNormalMode) = true
    · rw [if_pos h6] at h
      exact UICmd.noConfusion (Option.some.inj h)
    rw [if_neg h6] at h
    by_cases h7 : (chordMatches k km.gitMode && m.revisionsInNormalMode) = true
    · rw [if_pos h7] at h
      exact UICmd.noConfusion (Option.some.inj h)
    rw [if_neg h7] at h
    by_cases h8 : (chordMatches k km.undo && m.revisionsInNormalMode) = true
    · rw [if_pos h8] at h
      exact UICmd.noConfusion (Option.some.inj h)
    rw [if_neg h8] at h
    by_cases h9 : (chordMatches k km.redo && m.revisionsInNormalMode) = true
    · rw [if_pos h9] at h
      exact UICmd.noConfusion (Option.some.inj h)
    rw [if_neg h9] at h
    by_cases h10 : (chordMatches k km.bookmarkMode && m.revisionsInNormalMode) = true
    · rw [if_pos h10] at h
      exact UICmd.noConfusion (Option.some.inj h)
    rw [if_neg h10] at h
    by_cases h11 : chordMatches k km.help = true
    · rw [if_pos h11] at h
      exact UICmd.noConfusion (Option.some.inj h)
    rw [if_neg h11] at h
    by_cases h12 : (chordMatches k km.previewMode || chordMatches k km.previewToggleBottom) = true
    · rw [if_pos h12] at h
      split_ifs at h <;>
        first
          | exact Option.noConfusion h
          | exact UICmd.noConfusion (Option.some.inj h)
    rw [if_neg h12] at h
    by_cases h13 : (chordMatches k km.previewExpand && m.preview.visible) = true
    · rw [if_pos h13] at h
      exact Option.noConfusion h
    rw [if_neg h13] at h
    by_cases h14 : (chordMatches k km.previewShrink && m.preview.visible) = true
    · rw [if_pos h14] at h
      exact Option.noConfusion h
    rw [if_neg h14] at h
    by_cases h15 : chordMatches k km.customCommandsKey = true
    · rw [if_pos h15] at h
      exact UICmd.noConfusion (Option.some.inj h)
    rw [if_neg h15] at h
    by_cases h16 : chordMatches k km.leaderKey = true
    · rw [if_pos h16] at h
      exact UICmd.noConfusion (Option.some.inj h)
    rw [if_neg h16] at h
    by_cases h17 : chordMatches k km.fileSearchToggle = true
    · rw [if_pos h17] at h
      split_ifs at h
      exact UICmd.noConfusion (Option.some.inj h)
    rw [if_neg h17] at h
    by_cases h18 : (chordMatches k km.quickSearch && m.oplog.isSome) = true
    · rw [if_pos h18] at h
      exact Option.noConfusion h
    rw [if_neg h18] at h
    by_cases h19 : chordMatches k km.suspendKey = true
    · rw [if_pos h19] at h
      exact UICmd.noConfusion (Option.some.inj h)
    rw [if_neg h19] at h
    revert h
    split <;> intro h <;>
      first
        | exact Option.noConfusion h
        | exact UICmd.noConfusion (Option.some.inj h)
  · intro h
    unfold detailsInternalUpdateCmd at h
    by_cases d1 : conf = true
    · rw [if_pos d1] at h
      exact absurd (Option.some.inj h) (by simp)
    rw [if_neg d1] at h
    by_cases d2 : chordMatches k km.up = true
    · rw [if_pos d2] at h
      exact Option.noConfusion h
    rw [if_neg d2] at h
    by_cases d3 : chordMatches k km.down = true
    · rw [if_pos d3] at h
      exact Option.noConfusion h
    rw [if_neg d3] at h
    by_cases d4 : (chordMatches k km.cancel || chordMatches k km.detailsClose) = true
    · rw [if_pos d4] at h
      exact absurd (Option.some.inj h) (by simp)
    rw [if_neg d4] at h
    by_cases d5 : chordMatches k km.quit = true
    · exact ⟨by simpa using d1, d5⟩
    rw [if_neg d5] at h
    by_cases d6 : chordMatches k km.refreshKey = true
    · rw [if_pos d6] at h
      exact absurd (Option.some.inj h) (by simp)
    rw [if_neg d6] at h
    by_cases d7 : chordMatches k km.detailsDiff = true
    · rw [if_pos d7] at h
      split_ifs at h
      exact absurd (Option.some.inj h) (by simp)
    rw [if_neg d7] at h
    by_cases d8 : (chordMatches k km.detailsSplit || chordMatches k km.detailsSplitParallel) = true
    · rw [if_pos d8] at h
      exact absurd (Option.some.inj h) (by simp)
    rw [if_neg d8] at h
    by_cases d9 : chordMatches k km.detailsSquash = true
    · rw [if_pos d9] at h
      exact absurd (Option.some.inj h) (by simp)
    rw [if_neg d9] at h
    by_cases d10 : chordMatches k km.detailsRestore = true
    · rw [if_pos d10] at h
      exact absurd (Option.some.inj h) (by simp)
    rw [if_neg d10] at h
    by_cases d11 : chordMatches k km.detailsAbsorb = true
    · rw [if_pos d11] at h
      exact absurd (Option.some.inj h) (by simp)
    rw [if_neg d11] at h
    by_cases d12 : chordMatches k km.detailsToggleSelect = true
    · rw [if_pos d12] at h
      exact Option.noConfusion h
    rw [if_neg d12] at h
    by_cases d13 : chordMatches k km.detailsRevisionsChangingFile = true
    · rw [if_pos d13] at h
      split_ifs at h
      exact absurd (Option.some.inj h) (by simp)
    rw [if_neg d13] at h
    exact Option.noConfusion h

/-- Witness: the amended C7 theorem applied at concrete inputs — the
top-level quit branch fires only with the quit key in a safe state, and
the details operation emits quit on the quit key with no confirmation
open. -/
theorem quit_gating_amended_witness :
    (chordMatches (⟨1⟩ : Key) c7KeyMap.quit = true ∧ isSafeToQuit baseModel = true) ∧
      (false = false ∧ chordMatches (⟨1⟩ : Key) c7KeyMap.quit = true) :=
  ⟨(quit_gating_amended c7KeyMap baseModel ⟨1⟩ false true).1 (by decide),
    (quit_gating_amended c7KeyMap baseModel ⟨1⟩ false true).2 (by decide)⟩

/-- Preview position option (`config.PreviewPosition`). -/
inductive PreviewPosition where
  | auto
  | bottom
  | right
deriving DecidableEq, Repr

/-- Preview section of the configuration (`config.PreviewConfig`),
restricted to the field `GetPreviewPosition` reads. -/
structure PreviewConfig where
  position : String
deriving DecidableEq, Repr

/-- Configuration (`config.Config`), restricted to its preview part. -/
structure Config where
  preview : PreviewConfig
deriving DecidableEq, Repr

/-- Embeds `config.GetPreviewPosition` (config.go lines 158-169): an
error is reported as `some` message, and the position returned alongside
an error is the auto default. -/
def GetPreviewPosition (c : Config) : PreviewPosition × Option String :=
  match c.preview.position with
  | "auto" => (.auto, none)
  | "bottom" => (.bottom, none)
  | "right" => (.right, none)
  | _ => (.auto, some "invalid value for preview.position (expected one of: auto, bottom, right)")

/-- C8: `GetPreviewPosition` returns a nil error exactly on the three
valid strings, maps each valid string to its position, and on any other
string returns a non-nil error together with the documented auto
default — never an unusable result. -/
theorem getPreviewPosition_fallback (c : Config) :
    ((GetPreviewPosition c).2 = none ↔
        (c.preview.position = "auto" ∨ c.preview.position = "bottom" ∨
          c.preview.position = "right")) ∧
      (c.preview.position = "auto" → GetPreviewPosition c = (.auto, none)) ∧
      (c.preview.position = "bottom" → GetPreviewPosition c = (.bottom, none)) ∧
      (c.preview.position = "right" → GetPreviewPosition c = (.right, none)) ∧
      ((GetPreviewPosition c).2 ≠ none → (GetPreviewPosition c).1 = .auto) := by
  by_cases ha : c.preview.position = "auto"
  · simp [GetPreviewPosition, ha]
  by_cases hb : c.preview.position = "bottom"
  · simp [GetPreviewPosition, hb]
  by_cases hr : c.preview.position = "right"
  · simp [GetPreviewPosition, hr]
  have hm : GetPreviewPosition c =
      (.auto, some "invalid value for preview.position (expected one of: auto, bottom, right)") := by
    unfold GetPreviewPosition
    split
    · exact absurd (by assumption) ha
    · exact absurd (by assumption) hb
    · exact absurd (by assumption) hr
    · rfl
  rw [hm]
  simp [ha, hb, hr]

/-- Witness: C8 at the concrete invalid position string "left" and the
valid string "bottom". -/
theorem getPreviewPosition_fallback_witness :
    (GetPreviewPosition ⟨⟨"left"⟩⟩).2 ≠ none ∧ (GetPreviewPosition ⟨⟨"left"⟩⟩).1 = .auto ∧
      GetPreviewPosition ⟨⟨"bottom"⟩⟩ = (.bottom, none) := by
  refine ⟨?_, (getPreviewPosition_fallback ⟨⟨"left"⟩⟩).2.2.2.2 ?_,
    (getPreviewPosition_fallback ⟨⟨"bottom"⟩⟩).2.2.1 rfl⟩
  · intro hnone
    have := ((getPreviewPosition_fallback ⟨⟨"left"⟩⟩).1).mp hnone
    simp at this
  · intro hnone
    have := ((getPreviewPosition_fallback ⟨⟨"left"⟩⟩).1).mp hnone
    simp at this

/-- Embeds `Model.UpdatePreviewPosition` (ui.go lines 461-466): while the
position is in auto mode, the preview goes to the bottom exactly when the
terminal height is at least half the width (Go integer division on
non-negative terminal dimensions). -/
def UpdatePreviewPosition (m : Model) : Model :=
  if m.preview.autoPos then
    { m with preview := m.preview.setPosition true (decide (m.height ≥ m.width / 2)) }
  else m

/-- C9: in auto mode, updating the preview position places the preview
at the bottom iff height ≥ width / 2 (integer division) and keeps the
position in auto mode; when pinned, the state is unchanged. -/
theorem updatePreviewPosition_auto (m : Model) :
    (m.preview.autoPos = true →
      (UpdatePreviewPosition m).preview.atBottom = decide (m.height ≥ m.width / 2) ∧
        (UpdatePreviewPosition m).preview.autoPos = true) ∧
      (m.preview.autoPos = false → UpdatePreviewPosition m = m) := by
  constructor
  · intro hauto
    unfold UpdatePreviewPosition
    simp [hauto, PreviewModel.setPosition]
  · intro hpinned
    unfold UpdatePreviewPosition
    simp [hpinned]

/-- Concrete auto-mode state for the C9 witness: 80 columns, 24 rows. -/
def c9AutoModel : Model := baseModel

/-- Concrete pinned state for the C9 witness. -/
def c9PinnedModel : Model := { baseModel with preview := ⟨false, true, true, 50⟩ }

/-- Witness: C9 at concrete states — 24 ≥ 80 / 2 is false so an
80-by-24 auto-mode terminal keeps the preview at the right, and a pinned
state is unchanged. -/
theorem updatePreviewPosition_auto_witness :
    (UpdatePreviewPosition c9AutoModel).preview.atBottom = false ∧
      UpdatePreviewPosition c9PinnedModel = c9PinnedModel := by
  constructor
  · have := ((updatePreviewPosition_auto c9AutoModel).1 rfl).1
    rw [this]
    decide
  · exact (updatePreviewPosition_auto c9PinnedModel).2 rfl

/-- One entry of the details file list (`details.item`), restricted to
the fields `getSelectedFiles` reads. -/
structure FileItem where
  fileName : String
  selected : Bool
deriving DecidableEq, Repr

/-- Modelled from the spec: `DetailsList.current` returns the item under
the cursor (the details list source file is not in this snapshot; its
callers in details.go are). -/
def currentItem (files : List FileItem) (cursor : Nat) : Option FileItem :=
  files.get? cursor

/-- Embeds `Operation.getSelectedFiles` (details.go lines 289-305) over
the details list state (`s.files`, `s.cursor`): empty list gives an empty
result; otherwise the explicitly selected file names; if none are
selected and virtual selection is allowed, the single file under the
cursor.  (When the list is non-empty the details list keeps the cursor in
range, so `currentItem` is defined where the source dereferences it.) -/
def getSelectedFiles (files : List FileItem) (cursor : Nat) (allowVirtualSelection : Bool) :
    List String :=
  if files.isEmpty then []
  else
    if ((files.filter (·.selected)).map (·.fileName)).isEmpty && allowVirtualSelection then
      match currentItem files cursor with
      | some f => [f.fileName]
      | none => []
    else (files.filter (·.selected)).map (·.fileName)

/-- C10: for an empty file list the result is empty; for a non-empty
list with at least one selected file the result is exactly the selected
file names; with no selected file the result is the single file under the
cursor when virtual selection is allowed (given the in-range cursor the
list maintains), and empty when it is not.  Split, restore and absorb
call this with virtual selection allowed, hence act on the file under the
cursor when nothing is explicitly selected. -/
theorem getSelectedFiles_cases (files : List FileItem) (cursor : Nat)
    (allowVirtualSelection : Bool) :
    (files = [] → getSelectedFiles files cursor allowVirtualSelection = []) ∧
      (files.filter (·.selected) ≠ [] →
        getSelectedFiles files cursor allowVirtualSelection =
          (files.filter (·.selected)).map (·.fileName)) ∧
      (files.filter (·.selected) = [] → ∀ hcur : cursor < files.length,
        allowVirtualSelection = true →
          getSelectedFiles files cursor allowVirtualSelection =
            [(files.get ⟨cursor, hcur⟩).fileName]) ∧
      (files.filter (·.selected) = [] → allowVirtualSelection = false →
        getSelectedFiles files cursor allowVirtualSelection = []) := by
  refine ⟨fun hnil => ?_, fun hsel => ?_, fun hnosel hcur hallow => ?_,
    fun hnosel hallow => ?_⟩
  · simp [getSelectedFiles, hnil]
  · unfold getSelectedFiles
    by_cases hnil : files = []
    · exact absurd (by simp [hnil]) hsel
    · simp [hnil, List.isEmpty_iff, hsel]
  · have hne : files ≠ [] := List.ne_nil_of_length_pos (by omega)
    unfold getSelectedFiles currentItem
    rw [List.get?_eq_get hcur]
    simp [List.isEmpty_iff, hne, hnosel, hallow]
  · unfold getSelectedFiles
    by_cases hnil : files = []
    · simp [hnil]
    · simp [hnil, List.isEmpty_iff, hnosel, hallow]

/-- Concrete file lists for the C10 witness. -/
def c10Files : List FileItem := [⟨"a.txt", false⟩, ⟨"b.txt", false⟩, ⟨"c.txt", true⟩]

/-- Concrete unselected file list for the C10 witness. -/
def c10NoneSelected : List FileItem := [⟨"a.txt", false⟩, ⟨"b.txt", false⟩]

/-- Witness: C10 at concrete lists — with an explicit selection only the
selected name is returned, with none selected and virtual selection
allowed the file under the cursor is returned, with virtual selection
refused the result is empty, and the empty list gives the empty
result. -/
theorem getSelectedFiles_cases_witness :
    getSelectedFiles c10Files 0 true = ["c.txt"] ∧
      getSelectedFiles c10NoneSelected 1 true = ["b.txt"] ∧
      getSelectedFiles c10NoneSelected 1 false = [] ∧
      getSelectedFiles [] 0 true = [] := by
  refine ⟨?_, ?_, ?_, ?_⟩
  · have := (getSelectedFiles_cases c10Files 0 true).2.1 (by decide)
    rw [this]
    decide
  · have := (getSelectedFiles_cases c10NoneSelected 1 true).2.2.1 (by decide) (by decide) rfl
    rw [this]
    rfl
  · exact (getSelectedFiles_cases c10NoneSelected 1 false).2.2.2 (by decide) rfl
  · exact (getSelectedFiles_cases [] 0 true).1 rfl

end JJUI
